import Mathlib

/-!
Verification of the Grad-CAM saliency engine of the diabetic-retinopathy
report generator (`src/explanation_utils.py`, `src/model_utils.py`).

Numeric tensors are embedded as nested lists of rationals; the classifier,
its automatic differentiation, and the image libraries (cv2 resize /
colormap) are opaque collaborators and enter as explicit parameters, while
every arithmetic step the repository itself performs is translated
faithfully.  Floating-point division by zero (0/0 = NaN) is modelled by an
`Option` result: `none` marks an output that is not a real-valued array.
-/

namespace DRGradcam

/-- A 2-D array (heatmap). -/
abbrev Mat := List (List ℚ)

/-- A 3-D array (H × W × C image tensor or feature map stack). -/
abbrev Img := List (List (List ℚ))

/-- Maximum of a list of rationals, `none` on the empty list.
Embeds `tf.math.reduce_max` / `ndarray.max()` over the flattened tensor. -/
def listMax : List ℚ → Option ℚ
  | [] => none
  | x :: xs => some (xs.foldl max x)

/-- Dot product of two equal-length vectors; embeds the per-pixel
contraction `conv_outputs @ pooled_grads[..., tf.newaxis]`. -/
def dot (xs ys : List ℚ) : ℚ := (List.zipWith (· * ·) xs ys).sum

/-- `explanation_utils.py` lines 53–55: the raw heatmap, a per-pixel dot
product of the (batch-stripped) feature map with the channel-importance
vector `pooled_grads`, then squeezed to 2-D. -/
def rawHeatmap (fm : Img) (civ : List ℚ) : Mat :=
  fm.map (fun row => row.map (fun px => dot px civ))

/-- `explanation_utils.py` line 58:
`heatmap = tf.maximum(heatmap, 0) / tf.math.reduce_max(heatmap)`.
`reduce_max` is taken over the *unclipped* heatmap (both occurrences of
`heatmap` on the right-hand side denote the pre-assignment tensor).  When
that maximum is exactly zero every clipped entry is `0 / 0 = NaN` in IEEE
arithmetic; the unguarded division is modelled by returning `none`.  An
empty tensor has nothing to divide, giving the (empty) map back. -/
def normalizeHeatmap (h : Mat) : Option Mat :=
  match listMax h.flatten with
  | none => some (h.map (fun row => row.map (fun x => max x 0)))
  | some m =>
      if m = 0 then none
      else some (h.map (fun row => row.map (fun x => max x 0 / m)))

/-- The tensor-arithmetic core of `get_gradcam_heatmap`
(`explanation_utils.py` lines 50–60), from the captured feature map and the
spatially pooled gradients onward. -/
def get_gradcam_heatmap_core (fm : Img) (civ : List ℚ) : Option Mat :=
  normalizeHeatmap (rawHeatmap fm civ)

/-- Linear scan of `tf.argmax`: index of the running maximum, updated only
on a strict increase, so the first occurrence of the maximum wins. -/
def argmaxAux : List ℚ → ℚ → Nat → Nat → Nat
  | [], _, _, best => best
  | x :: xs, bv, i, best =>
      if bv < x then argmaxAux xs x (i + 1) i else argmaxAux xs bv (i + 1) best

/-- `tf.argmax` over a vector (first-occurrence tie-breaking, the behaviour
of the CPU kernel); the empty vector is out of scope and mapped to 0. -/
def tf_argmax : List ℚ → Nat
  | [] => 0
  | x :: xs => argmaxAux xs x 1 0

/-- `explanation_utils.py` lines 42–44: when `pred_class is None` the class
is `tf.argmax(predictions[0])`, otherwise the given class is kept. -/
def selectClass (predClass : Option Nat) (probs : List ℚ) : Nat :=
  match predClass with
  | some c => c
  | none => tf_argmax probs

/-- A classifier layer as seen by the layer search: its name and the number
of axes of its output shape (`len(layer.output_shape)`). -/
structure Layer where
  name : String
  outputRank : Nat
deriving DecidableEq, Repr

/-- The error actually raised versus the error the spec prescribes when no
four-axis layer exists. `getLayerLookupError` stands for the generic
`ValueError` that `model.get_layer(None)` raises downstream. -/
inductive LayerSelectError where
  | layerNotFound
  | getLayerLookupError
deriving DecidableEq, Repr

/-- `explanation_utils.py` lines 27–31: reverse linear scan for the last
layer whose output shape has four axes. -/
def findLastConv (layers : List Layer) : Option String :=
  (layers.reverse.find? (fun l => l.outputRank = 4)).map (fun l => l.name)

/-- `explanation_utils.py` lines 27–37: resolve the layer to instrument.
If the caller gave no name and the scan finds none, the name stays `None`
and `model.get_layer(None)` on line 36 raises the generic lookup error; a
name that matches no layer likewise fails inside `get_layer`. -/
def selectConvLayer (layers : List Layer) (given : Option String) :
    Except LayerSelectError String :=
  match (match given with
         | some n => some n
         | none => findLastConv layers) with
  | none => Except.error LayerSelectError.getLayerLookupError
  | some n =>
      if layers.any (fun l => l.name = n) then Except.ok n
      else Except.error LayerSelectError.getLayerLookupError

/-- `np.uint8(255 * x)`: scale, truncate toward zero (non-negative inputs:
floor), reduce modulo 2^8. -/
def toUint8 (x : ℚ) : Nat := (Int.toNat ⌊255 * x⌋) % 256

/-- Blend two 3-D arrays elementwise (`heatmap * alpha + image * (1 - alpha)`,
`explanation_utils.py` line 90). -/
def blend3 (hm img : Img) (alpha : ℚ) : Img :=
  List.zipWith (List.zipWith (List.zipWith
    (fun hv iv => hv * alpha + iv * (1 - alpha)))) hm img

/-- `explanation_utils.py` lines 63–92, `overlay_heatmap`.  The external
collaborators enter as parameters: `resize hm w h` is
`cv2.resize(hm, (w, h))` and `cmapBGR v` is the BGR byte triple
`cv2.applyColorMap` assigns to the byte `v`; `cv2.cvtColor(..., BGR2RGB)`
reverses each triple.  Everything else is the source's own arithmetic. -/
def overlay_heatmap (resize : Mat → Nat → Nat → Mat) (cmapBGR : Nat → List Nat)
    (image : Img) (heatmap : Mat) (alpha : ℚ) : Img :=
  let hmR := resize heatmap (image.headD []).length image.length
  let hmU8 := hmR.map (fun row => row.map toUint8)
  let hmBGR := hmU8.map (fun row => row.map cmapBGR)
  let hmRGB := hmBGR.map (fun row => row.map List.reverse)
  let hmF : Img := hmRGB.map (fun row => row.map (fun px => px.map (fun (v : Nat) => (v : ℚ) / 255)))
  let image' :=
    match listMax image.flatten.flatten with
    | some m =>
        if 1 < m then image.map (fun r => r.map (fun px => px.map (fun v => v / 255)))
        else image
    | none => image
  blend3 hmF image' alpha

/-- The pure false-color rendering of the resized heatmap, written from the
spec's words ("map each resized heatmap scalar through the colormap to
produce an RGB triple, producing a false-color image in [0,1]"), to compare
with `overlay_heatmap` at `alpha = 1`. -/
def colormapRendering (resize : Mat → Nat → Nat → Mat) (cmapBGR : Nat → List Nat)
    (heatmap : Mat) (w h : Nat) : Img :=
  (resize heatmap w h).map (fun row => row.map
    (fun x => ((cmapBGR (toUint8 x)).reverse).map (fun (v : Nat) => (v : ℚ) / 255)))

/-! ### Allocation semantics of `overlay_heatmap`

To state that `overlay_heatmap` never mutates its caller's arrays, the numpy
heap is made explicit: a store of array values, with one allocation per
assignment line of the source.  Every operation used (`cv2.resize`,
`np.uint8(...)`, `cv2.applyColorMap`, `cv2.cvtColor`, `/ 255.0`, and the
blending expression) returns a freshly allocated array; the local names
`heatmap` and `image` are rebound, never written through. -/

/-- A value on the numpy heap: rational or byte matrices of each rank the
pipeline produces. -/
inductive Val where
  | mq2 (a : Mat)
  | mn2 (a : List (List Nat))
  | mn3 (a : List (List (List Nat)))
  | mq3 (a : Img)
deriving DecidableEq, Repr

/-- The numpy heap: arrays indexed by allocation order. -/
abbrev Store := List Val

/-- Allocate a fresh array, returning the new store and the reference. -/
def alloc (s : Store) (v : Val) : Store × Nat := (s ++ [v], s.length)

/-- Read a 2-D rational array (junk on a rank mismatch, which the claims
never exercise). -/
def readQ2 (s : Store) (r : Nat) : Mat :=
  match s.getD r (Val.mq2 []) with
  | Val.mq2 a => a
  | _ => []

/-- Read a 3-D rational array. -/
def readQ3 (s : Store) (r : Nat) : Img :=
  match s.getD r (Val.mq3 []) with
  | Val.mq3 a => a
  | _ => []

/-- `overlay_heatmap` with the heap explicit: the caller passes references
to its `image` and `heatmap` arrays; each assignment line of
`explanation_utils.py` lines 77–90 allocates a fresh array (the `image/255`
rebinding on line 87 allocates only when taken).  Returns the heap and a
reference to the blended result. -/
def overlay_heatmap_st (resize : Mat → Nat → Nat → Mat) (cmapBGR : Nat → List Nat)
    (s0 : Store) (imgRef hmRef : Nat) (alpha : ℚ) : Store × Nat :=
  let image := readQ3 s0 imgRef
  let heatmap := readQ2 s0 hmRef
  let hmR := resize heatmap (image.headD []).length image.length
  let s1 := (alloc s0 (Val.mq2 hmR)).1
  let hmU8 := hmR.map (fun row => row.map toUint8)
  let s2 := (alloc s1 (Val.mn2 hmU8)).1
  let hmBGR := hmU8.map (fun row => row.map cmapBGR)
  let s3 := (alloc s2 (Val.mn3 hmBGR)).1
  let hmRGB := hmBGR.map (fun row => row.map List.reverse)
  let s4 := (alloc s3 (Val.mn3 hmRGB)).1
  let hmF : Img := hmRGB.map (fun row => row.map (fun px => px.map (fun (v : Nat) => (v : ℚ) / 255)))
  let s5 := (alloc s4 (Val.mq3 hmF)).1
  let scaled :=
    match listMax image.flatten.flatten with
    | some m => if 1 < m then true else false
    | none => false
  let image' :=
    if scaled then image.map (fun r => r.map (fun px => px.map (fun v => v / 255)))
    else image
  let s6 := if scaled then (alloc s5 (Val.mq3 image')).1 else s5
  alloc s6 (Val.mq3 (blend3 hmF image' alpha))

/-! ### Patient-facing text (`explain_prediction_simple`, `get_recommendation`) -/

/-- Truncation toward zero, the semantics of Python's `int()` on a float. -/
def pyInt (q : ℚ) : Int := if q < 0 then -⌊-q⌋ else ⌊q⌋

/-- The `class_explanations` dictionary of `explain_prediction_simple`
(`explanation_utils.py` lines 268–274); `none` for keys not present. -/
def class_explanations (c : Int) : Option String :=
  if c = 0 then some "The computer looked at your eye photo and did not find any signs of disease. Your blood vessels look clear and healthy."
  else if c = 1 then some "The computer found some early changes in your eye. These are small signs that need to be watched."
  else if c = 2 then some "The computer found changes in your eye that need attention. There are signs of blood vessel damage."
  else if c = 3 then some "The computer found serious changes in your eye. The blood vessels show significant damage that needs treatment."
  else if c = 4 then some "The computer found advanced changes in your eye. There is serious blood vessel damage that needs immediate treatment."
  else none

/-- `explanation_utils.py` lines 256–282, `explain_prediction_simple`:
dictionary lookup with `class_explanations[0]` as the `.get` default, then
a confidence sentence appended (`heatmap_focus` is accepted and unused,
as in the source). -/
def explain_prediction_simple (predicted_class : Int) (confidence : ℚ)
    (heatmap_focus : String) : String :=
  let explanation := (class_explanations predicted_class).getD
    ((class_explanations 0).getD "")
  let confidence_pct := pyInt (confidence * 100)
  let _ := heatmap_focus
  explanation ++ "\n\nThe computer is " ++ toString confidence_pct ++
    "% confident about this finding."

/-- One entry of the `recommendations` dictionary of `get_recommendation`. -/
structure Recommendation where
  nurse : String
  patient : String
  urgency : String
  note : Option String
deriving DecidableEq, Repr

/-- The `recommendations` dictionary of `model_utils.py` lines 127–153
(entries carry no `note` until the confidence branch adds one). -/
def recommendations (c : Int) : Option Recommendation :=
  if c = 0 then some ⟨"Result indicates no diabetic retinopathy. Routine follow-up recommended.",
    "Your eyes look healthy. Come back for another screening in 1 year.", "routine", none⟩
  else if c = 1 then some ⟨"Mild diabetic retinopathy detected. Recommend follow-up in 6-12 months.",
    "Early signs detected. See an eye doctor within 6-12 months to monitor your eyes.", "monitor", none⟩
  else if c = 2 then some ⟨"Moderate diabetic retinopathy. Refer to eye specialist within 3-6 months.",
    "Your eyes need attention. See an eye doctor within 3-6 months for treatment.", "refer", none⟩
  else if c = 3 then some ⟨"Severe diabetic retinopathy. Urgent referral to eye specialist within 1-2 months.",
    "Your eyes need urgent care. See an eye doctor within 1-2 months. Treatment can protect your vision.", "urgent", none⟩
  else if c = 4 then some ⟨"Proliferative diabetic retinopathy. Immediate referral to eye specialist (within 2 weeks).",
    "Your eyes need immediate attention. See an eye doctor within 2 weeks. Early treatment is very important.", "immediate", none⟩
  else none

/-- `model_utils.py` lines 116–165, `get_recommendation`: `.get` with the
class-0 entry as default, then a confidence-dependent `note` is set. -/
def get_recommendation (predicted_class : Int) (confidence : ℚ) : Recommendation :=
  let r := (recommendations predicted_class).getD
    ((recommendations 0).getD ⟨"", "", "", none⟩)
  if confidence < 7/10 then
    { r with note := some "Low confidence - recommend manual review by specialist" }
  else if confidence < 85/100 then
    { r with note := some "Medium confidence - consider additional screening" }
  else
    { r with note := some "High confidence result" }

/-! ### Helper lemmas about `listMax` -/

lemma le_foldl_max : ∀ (xs : List ℚ) (a : ℚ), a ≤ xs.foldl max a
  | [], _ => le_refl _
  | x :: xs, a => le_trans (le_max_left a x) (le_foldl_max xs (max a x))

lemma mem_le_foldl_max : ∀ (xs : List ℚ) (a y : ℚ), y ∈ xs → y ≤ xs.foldl max a
  | x :: xs, a, y, h => by
      rcases List.mem_cons.mp h with h | h
      · subst h
        exact le_trans (le_max_right a y) (le_foldl_max xs _)
      · exact mem_le_foldl_max xs (max a x) y h

lemma foldl_max_mem : ∀ (xs : List ℚ) (a : ℚ), xs.foldl max a = a ∨ xs.foldl max a ∈ xs
  | [], _ => Or.inl rfl
  | x :: xs, a => by
      rw [List.foldl_cons]
      rcases foldl_max_mem xs (max a x) with h | h
      · rw [h]
        rcases le_total x a with hxa | hax
        · exact Or.inl (max_eq_left hxa)
        · exact Or.inr (by rw [max_eq_right hax]; exact List.mem_cons_self x xs)
      · exact Or.inr (List.mem_cons_of_mem x h)

lemma listMax_spec {xs : List ℚ} {m : ℚ} (h : listMax xs = some m) :
    m ∈ xs ∧ ∀ y ∈ xs, y ≤ m := by
  cases xs with
  | nil => simp [listMax] at h
  | cons x xs =>
      have hm : xs.foldl max x = m := by simpa [listMax] using h
      constructor
      · rcases foldl_max_mem xs x with h' | h'
        · rw [← hm, h']
          exact List.mem_cons_self x xs
        · rw [← hm]
          exact List.mem_cons_of_mem x h'
      · intro y hy
        rcases List.mem_cons.mp hy with hy | hy
        · exact hm ▸ hy ▸ le_foldl_max xs x
        · exact hm ▸ mem_le_foldl_max xs x y hy

/-! ### Claim theorems -/

/-- C1: the code violates the degenerate-case claim.  For the all-zero
1×1×1 feature map with the (non-positive) channel importance vector `[0]`,
every entry of the clipped weighted feature sum is zero, yet
`get_gradcam_heatmap` divides the clipped heatmap by `reduce_max = 0` with
no guard, so every pixel is `0 / 0` — NaN (modelled `none`) — instead of
the all-zero heatmap the spec prescribes. -/
theorem c1_degenerate_division_nan :
    get_gradcam_heatmap_core [[[0]]] [0] = none := by
  norm_num [get_gradcam_heatmap_core, normalizeHeatmap, rawHeatmap, dot, listMax]

/-- C2: in the non-degenerate case — the raw weighted feature sum has a
strictly positive maximum `m` — `get_gradcam_heatmap` returns a heatmap
whose every element lies in `[0, 1]` and which attains the value `1`
(at a pixel realising the maximum positive contribution). -/
theorem c2_normalization_bound (fm : Img) (civ : List ℚ) (m : ℚ)
    (h : listMax (rawHeatmap fm civ).flatten = some m) (hm : 0 < m) :
    ∃ out, get_gradcam_heatmap_core fm civ = some out ∧
      (∀ x ∈ out.flatten, 0 ≤ x ∧ x ≤ 1) ∧ (1 : ℚ) ∈ out.flatten := by
  have hspec := listMax_spec h
  have hne : m ≠ 0 := ne_of_gt hm
  refine ⟨(rawHeatmap fm civ).map (fun row => row.map (fun x => max x 0 / m)),
    ?_, ?_, ?_⟩
  · unfold get_gradcam_heatmap_core normalizeHeatmap
    rw [h]
    simp [hne]
  · intro x hx
    rw [← List.map_flatten] at hx
    rcases List.mem_map.mp hx with ⟨y, hy, rfl⟩
    exact ⟨div_nonneg (le_max_right y 0) (le_of_lt hm),
      (div_le_one hm).mpr (max_le (hspec.2 y hy) (le_of_lt hm))⟩
  · rw [← List.map_flatten]
    refine List.mem_map.mpr ⟨m, hspec.1, ?_⟩
    rw [max_eq_left (le_of_lt hm), div_self hne]

/-- Witness for C2 at the 1×1×1 feature map `[[[1]]]` with importance `[1]`. -/
theorem c2_normalization_bound_witness :
    ∃ out, get_gradcam_heatmap_core [[[1]]] [1] = some out ∧
      (∀ x ∈ out.flatten, 0 ≤ x ∧ x ≤ 1) ∧ (1 : ℚ) ∈ out.flatten :=
  c2_normalization_bound [[[1]]] [1] 1
    (by norm_num [rawHeatmap, dot, listMax]) (by norm_num)

/-- C3, counterexample: for a classifier exposing only two-axis layers,
`get_gradcam_heatmap` does not raise a distinguished `LayerNotFound`
condition — the reverse scan quietly leaves the layer name unset and
`model.get_layer(None)` fails downstream with a generic lookup error. -/
theorem c3_counterexample :
    selectConvLayer [⟨"dense_1", 2⟩, ⟨"dropout", 2⟩] none =
        Except.error LayerSelectError.getLayerLookupError ∧
      (Except.error LayerSelectError.getLayerLookupError : Except LayerSelectError String) ≠
        Except.error LayerSelectError.layerNotFound :=
  ⟨rfl, by simp⟩

/-- C3, amended: whenever no layer has a four-axis output shape and no
explicit layer name is given, the layer selection of `get_gradcam_heatmap`
fails — it never succeeds — but with the generic downstream lookup error
(`model.get_layer(None)`), not a distinguished `LayerNotFound`. -/
theorem c3_amended_generic_lookup_failure (layers : List Layer)
    (h : ∀ l ∈ layers, l.outputRank ≠ 4) :
    selectConvLayer layers none = Except.error LayerSelectError.getLayerLookupError := by
  have hfind : findLastConv layers = none := by
    unfold findLastConv
    rw [List.find?_eq_none.mpr
      (fun x hx => by simpa using h x (List.mem_reverse.mp hx))]
    rfl
  simp [selectConvLayer, hfind]

/-- Witness for the amended C3 at a one-layer classifier. -/
theorem c3_amended_witness :
    selectConvLayer [⟨"dense_1", 2⟩] none =
      Except.error LayerSelectError.getLayerLookupError :=
  c3_amended_generic_lookup_failure [⟨"dense_1", 2⟩] (by decide)

/-- C4, counterexample: for the all-ones 7×7×32 feature map and the
channel importance vector of 32 halves, the per-pixel dot product is
`32 × 0.5 = 16` at every pixel, not the claimed `(7×7×0.5×32) = 112`. -/
theorem c4_counterexample :
    rawHeatmap (List.replicate 7 (List.replicate 7 (List.replicate 32 (1 : ℚ))))
        (List.replicate 32 (1/2 : ℚ)) =
      List.replicate 7 (List.replicate 7 (16 : ℚ)) ∧ (16 : ℚ) ≠ 112 := by
  refine ⟨by norm_num [rawHeatmap, dot, List.replicate], by norm_num⟩

/-- C4, amended: for the all-ones 7×7×32 feature map with importance
vector of 32 halves, the raw heatmap is uniformly `0.5 × 32 = 16`, and
after clipping (a no-op) and max-normalization the result is a uniform
7×7 array of exactly 1. -/
theorem c4_end_to_end_scenario :
    rawHeatmap (List.replicate 7 (List.replicate 7 (List.replicate 32 (1 : ℚ))))
        (List.replicate 32 (1/2 : ℚ)) =
      List.replicate 7 (List.replicate 7 (16 : ℚ)) ∧
    get_gradcam_heatmap_core
        (List.replicate 7 (List.replicate 7 (List.replicate 32 (1 : ℚ))))
        (List.replicate 32 (1/2 : ℚ)) =
      some (List.replicate 7 (List.replicate 7 (1 : ℚ))) := by
  refine ⟨by norm_num [rawHeatmap, dot, List.replicate],
    by norm_num [get_gradcam_heatmap_core, normalizeHeatmap, rawHeatmap, dot,
      listMax, List.replicate]⟩

/-- C8: both operations are deterministic — they are pure functions of the
listed arguments (the embedding threads no state and the source reads no
globals), so repeated calls agree exactly. -/
theorem c8_deterministic (fm : Img) (civ : List ℚ) (resize : Mat → Nat → Nat → Mat)
    (cmapBGR : Nat → List Nat) (image : Img) (heatmap : Mat) (alpha : ℚ) :
    get_gradcam_heatmap_core fm civ = get_gradcam_heatmap_core fm civ ∧
      overlay_heatmap resize cmapBGR image heatmap alpha =
        overlay_heatmap resize cmapBGR image heatmap alpha :=
  ⟨rfl, rfl⟩

/-- C9: any class index outside {0,…,4} silently falls back to the
class-0 text: `explain_prediction_simple` and `get_recommendation` both
use `.get(predicted_class, <class-0 entry>)` and never signal an error. -/
theorem c9_out_of_range_class_falls_back (c : Int) (confidence : ℚ)
    (focus : String) (h : c < 0 ∨ 4 < c) :
    explain_prediction_simple c confidence focus =
        explain_prediction_simple 0 confidence focus ∧
      get_recommendation c confidence = get_recommendation 0 confidence := by
  have h0 : c ≠ 0 := by omega
  have h1 : c ≠ 1 := by omega
  have h2 : c ≠ 2 := by omega
  have h3 : c ≠ 3 := by omega
  have h4 : c ≠ 4 := by omega
  constructor
  · simp [explain_prediction_simple, class_explanations, h0, h1, h2, h3, h4]
  · simp [get_recommendation, recommendations, h0, h1, h2, h3, h4]

/-- Witness for C9 at the out-of-range class 7. -/
theorem c9_witness :
    explain_prediction_simple 7 (1/2) "the center of the eye" =
        explain_prediction_simple 0 (1/2) "the center of the eye" ∧
      get_recommendation 7 (1/2) = get_recommendation 0 (1/2) :=
  c9_out_of_range_class_falls_back 7 (1/2) "the center of the eye"
    (Or.inr (by norm_num))

/-- Helper for `getD`: an in-bounds `getD` value is a member of the list. -/
lemma getD_mem_of_lt (l : List ℚ) (j : Nat) (hj : j < l.length) :
    l.getD j 0 ∈ l := by
  rw [List.getD_eq_getElem l 0 hj]
  exact List.getElem_mem hj

/-- Scan invariant of `argmaxAux`: either no element beats the running value
and the running index is returned, or the result points (relative to `i`) at
the first strict improvement that realises the maximum of the tail. -/
lemma argmaxAux_spec : ∀ (xs : List ℚ) (bv : ℚ) (i best : Nat),
    (argmaxAux xs bv i best = best ∧ ∀ x ∈ xs, x ≤ bv) ∨
    (∃ k, k < xs.length ∧ argmaxAux xs bv i best = i + k ∧
      bv < xs.getD k 0 ∧ (∀ x ∈ xs, x ≤ xs.getD k 0) ∧
      (∀ j, j < k → xs.getD j 0 < xs.getD k 0))
  | [], bv, i, best => Or.inl ⟨rfl, by simp⟩
  | x :: xs, bv, i, best => by
      by_cases hbx : bv < x
      · have hrec := argmaxAux_spec xs x (i + 1) i
        rw [show argmaxAux (x :: xs) bv i best = argmaxAux xs x (i + 1) i from by
          simp [argmaxAux, hbx]]
        rcases hrec with ⟨hr, hall⟩ | ⟨k, hk, hr, hlt, hball, hfirst⟩
        · refine Or.inr ⟨0, Nat.succ_pos _, by simpa using hr, hbx, ?_, by omega⟩
          intro y hy
          rcases List.mem_cons.mp hy with rfl | hy
          · exact le_refl y
          · exact hall y hy
        · refine Or.inr ⟨k + 1, by simpa using Nat.succ_lt_succ hk,
            by rw [hr]; omega, ?_, ?_, ?_⟩
          · exact lt_trans hbx hlt
          · intro y hy
            rcases List.mem_cons.mp hy with rfl | hy
            · exact le_of_lt hlt
            · exact hball y hy
          · intro j hj
            cases j with
            | zero => exact hlt
            | succ j' => exact hfirst j' (Nat.lt_of_succ_lt_succ hj)
      · have hxb : x ≤ bv := not_lt.mp hbx
        have hrec := argmaxAux_spec xs bv (i + 1) best
        rw [show argmaxAux (x :: xs) bv i best = argmaxAux xs bv (i + 1) best from by
          simp [argmaxAux, hbx]]
        rcases hrec with ⟨hr, hall⟩ | ⟨k, hk, hr, hlt, hball, hfirst⟩
        · refine Or.inl ⟨hr, ?_⟩
          intro y hy
          rcases List.mem_cons.mp hy with rfl | hy
          · exact hxb
          · exact hall y hy
        · refine Or.inr ⟨k + 1, by simpa using Nat.succ_lt_succ hk,
            by rw [hr]; omega, ?_, ?_, ?_⟩
          · exact hlt
          · intro y hy
            rcases List.mem_cons.mp hy with rfl | hy
            · exact le_of_lt (lt_of_le_of_lt hxb hlt)
            · exact hball y hy
          · intro j hj
            cases j with
            | zero => exact lt_of_le_of_lt hxb hlt
            | succ j' => exact hfirst j' (Nat.lt_of_succ_lt_succ hj)

/-- C5: when the target class is omitted, `get_gradcam_heatmap` selects the
index of the maximum of the probability vector, ties broken by the first
(lowest) index: the selected index is in range, no entry exceeds the entry
there, and every strictly earlier entry is strictly smaller. -/
theorem c5_argmax_fallback (probs : List ℚ) (hne : probs ≠ []) :
    selectClass none probs < probs.length ∧
    (∀ j, j < probs.length →
      probs.getD j 0 ≤ probs.getD (selectClass none probs) 0) ∧
    (∀ j, j < selectClass none probs →
      probs.getD j 0 < probs.getD (selectClass none probs) 0) := by
  cases probs with
  | nil => exact absurd rfl hne
  | cons p ps =>
      have hsel : selectClass none (p :: ps) = argmaxAux ps p 1 0 := rfl
      rcases argmaxAux_spec ps p 1 0 with ⟨hr, hall⟩ | ⟨k, hk, hr, hlt, hball, hfirst⟩
      · rw [hsel, hr]
        refine ⟨Nat.succ_pos _, ?_, by omega⟩
        intro j hj
        cases j with
        | zero => exact le_refl _
        | succ j' =>
            have hj' : j' < ps.length := by simpa using Nat.lt_of_succ_lt_succ hj
            exact hall _ (getD_mem_of_lt ps j' hj')
      · have h1k : argmaxAux ps p 1 0 = k + 1 := by rw [hr]; omega
        rw [hsel, h1k]
        refine ⟨by simpa using Nat.succ_lt_succ hk, ?_, ?_⟩
        · intro j hj
          cases j with
          | zero => exact le_of_lt hlt
          | succ j' =>
              have hj' : j' < ps.length := by simpa using Nat.lt_of_succ_lt_succ hj
              exact hball _ (getD_mem_of_lt ps j' hj')
        · intro j hj
          cases j with
          | zero => exact hlt
          | succ j' => exact hfirst j' (Nat.lt_of_succ_lt_succ hj)

/-- Witness for C5 at the tied probability vector `[1/10, 2/5, 2/5, 1/10]`
(maximum 2/5 first attained at index 1). -/
theorem c5_argmax_fallback_witness :
    selectClass none [1/10, 2/5, 2/5, 1/10] < ([1/10, 2/5, 2/5, 1/10] : List ℚ).length ∧
    (∀ j, j < ([1/10, 2/5, 2/5, 1/10] : List ℚ).length →
      ([1/10, 2/5, 2/5, 1/10] : List ℚ).getD j 0 ≤
        ([1/10, 2/5, 2/5, 1/10] : List ℚ).getD (selectClass none [1/10, 2/5, 2/5, 1/10]) 0) ∧
    (∀ j, j < selectClass none [1/10, 2/5, 2/5, 1/10] →
      ([1/10, 2/5, 2/5, 1/10] : List ℚ).getD j 0 <
        ([1/10, 2/5, 2/5, 1/10] : List ℚ).getD (selectClass none [1/10, 2/5, 2/5, 1/10]) 0) :=
  c5_argmax_fallback [1/10, 2/5, 2/5, 1/10] (by simp)

/-! ### Shape lemmas for the blending step -/

lemma zipWith_const_left {f : ℚ → ℚ → ℚ} (hf : ∀ x y, f x y = x) :
    ∀ (a b : List ℚ), a.length ≤ b.length → List.zipWith f a b = a
  | [], _, _ => by simp
  | x :: xs, [], h => by simp at h
  | x :: xs, y :: ys, h => by
      simp only [List.zipWith_cons_cons, hf]
      rw [zipWith_const_left hf xs ys (Nat.le_of_succ_le_succ h)]

lemma zipWith_const_right {f : ℚ → ℚ → ℚ} (hf : ∀ x y, f x y = y) :
    ∀ (a b : List ℚ), b.length ≤ a.length → List.zipWith f a b = b
  | _, [], _ => by simp
  | [], y :: ys, h => by simp at h
  | x :: xs, y :: ys, h => by
      simp only [List.zipWith_cons_cons, hf]
      rw [zipWith_const_right hf xs ys (Nat.le_of_succ_le_succ h)]

lemma zipWith2_const_left {f : ℚ → ℚ → ℚ} (hf : ∀ x y, f x y = x) :
    ∀ (a b : List (List ℚ)) (c : Nat), a.length ≤ b.length →
      (∀ p ∈ a, p.length = c) → (∀ p ∈ b, p.length = c) →
      List.zipWith (List.zipWith f) a b = a
  | [], _, _, _, _, _ => by simp
  | p :: a, [], _, h, _, _ => by simp at h
  | p :: a, q :: b, c, h, ha, hb => by
      simp only [List.zipWith_cons_cons]
      rw [zipWith_const_left hf p q (by
          rw [ha p (List.mem_cons_self p a), hb q (List.mem_cons_self q b)]),
        zipWith2_const_left hf a b c (Nat.le_of_succ_le_succ h)
          (fun s hs => ha s (List.mem_cons_of_mem p hs))
          (fun s hs => hb s (List.mem_cons_of_mem q hs))]

lemma zipWith2_const_right {f : ℚ → ℚ → ℚ} (hf : ∀ x y, f x y = y) :
    ∀ (a b : List (List ℚ)) (c : Nat), b.length ≤ a.length →
      (∀ p ∈ a, p.length = c) → (∀ p ∈ b, p.length = c) →
      List.zipWith (List.zipWith f) a b = b
  | _, [], _, _, _, _ => by simp
  | [], q :: b, _, h, _, _ => by simp at h
  | p :: a, q :: b, c, h, ha, hb => by
      simp only [List.zipWith_cons_cons]
      rw [zipWith_const_right hf p q (by
          rw [ha p (List.mem_cons_self p a), hb q (List.mem_cons_self q b)]),
        zipWith2_const_right hf a b c (Nat.le_of_succ_le_succ h)
          (fun s hs => ha s (List.mem_cons_of_mem p hs))
          (fun s hs => hb s (List.mem_cons_of_mem q hs))]

lemma zipWith3_const_left {f : ℚ → ℚ → ℚ} (hf : ∀ x y, f x y = x) :
    ∀ (A B : Img) (w c : Nat), A.length ≤ B.length →
      (∀ r ∈ A, r.length = w ∧ ∀ p ∈ r, p.length = c) →
      (∀ r ∈ B, r.length = w ∧ ∀ p ∈ r, p.length = c) →
      List.zipWith (List.zipWith (List.zipWith f)) A B = A
  | [], _, _, _, _, _, _ => by simp
  | r :: A, [], _, _, h, _, _ => by simp at h
  | r :: A, q :: B, w, c, h, hA, hB => by
      simp only [List.zipWith_cons_cons]
      have hr := hA r (List.mem_cons_self r A)
      have hq := hB q (List.mem_cons_self q B)
      rw [zipWith2_const_left hf r q c (by rw [hr.1, hq.1]) hr.2 hq.2,
        zipWith3_const_left hf A B w c (Nat.le_of_succ_le_succ h)
          (fun s hs => hA s (List.mem_cons_of_mem r hs))
          (fun s hs => hB s (List.mem_cons_of_mem q hs))]

lemma zipWith3_const_right {f : ℚ → ℚ → ℚ} (hf : ∀ x y, f x y = y) :
    ∀ (A B : Img) (w c : Nat), B.length ≤ A.length →
      (∀ r ∈ A, r.length = w ∧ ∀ p ∈ r, p.length = c) →
      (∀ r ∈ B, r.length = w ∧ ∀ p ∈ r, p.length = c) →
      List.zipWith (List.zipWith (List.zipWith f)) A B = B
  | _, [], _, _, _, _, _ => by simp
  | [], q :: B, _, _, h, _, _ => by simp at h
  | r :: A, q :: B, w, c, h, hA, hB => by
      simp only [List.zipWith_cons_cons]
      have hr := hA r (List.mem_cons_self r A)
      have hq := hB q (List.mem_cons_self q B)
      rw [zipWith2_const_right hf r q c (by rw [hr.1, hq.1]) hr.2 hq.2,
        zipWith3_const_right hf A B w c (Nat.le_of_succ_le_succ h)
          (fun s hs => hA s (List.mem_cons_of_mem r hs))
          (fun s hs => hB s (List.mem_cons_of_mem q hs))]

lemma blend3_alpha_zero (A B : Img) (w c : Nat) (hlen : B.length ≤ A.length)
    (hA : ∀ r ∈ A, r.length = w ∧ ∀ p ∈ r, p.length = c)
    (hB : ∀ r ∈ B, r.length = w ∧ ∀ p ∈ r, p.length = c) :
    blend3 A B 0 = B :=
  zipWith3_const_right (fun x y => by ring) A B w c hlen hA hB

lemma blend3_alpha_one (A B : Img) (w c : Nat) (hlen : A.length ≤ B.length)
    (hA : ∀ r ∈ A, r.length = w ∧ ∀ p ∈ r, p.length = c)
    (hB : ∀ r ∈ B, r.length = w ∧ ∀ p ∈ r, p.length = c) :
    blend3 A B 1 = A :=
  zipWith3_const_left (fun x y => by ring) A B w c hlen hA hB

lemma of_mem_zipWith {α β γ : Type} {f : α → β → γ} :
    ∀ {a : List α} {b : List β} {c : γ}, c ∈ List.zipWith f a b →
      ∃ x ∈ a, ∃ y ∈ b, c = f x y
  | [], _, _, h => by simp at h
  | _ :: _, [], _, h => by simp at h
  | x :: xs, y :: ys, c, h => by
      rcases List.mem_cons.mp (by simpa using h) with h | h
      · exact ⟨x, List.mem_cons_self x xs, y, List.mem_cons_self y ys, h⟩
      · rcases of_mem_zipWith h with ⟨x', hx', y', hy', hc⟩
        exact ⟨x', List.mem_cons_of_mem x hx', y', List.mem_cons_of_mem y hy', hc⟩

/-- C7: `overlay_heatmap` returns an array with the height and width of
`image`, whatever the heatmap's own resolution: `image` is a rectangular
`image.length × w` stack and `cv2.resize` honours its requested output size
(the `hres` contract). -/
theorem c7_overlay_shape (resize : Mat → Nat → Nat → Mat) (cmapBGR : Nat → List Nat)
    (image : Img) (heatmap : Mat) (alpha : ℚ) (w : Nat)
    (himg : ∀ r ∈ image, r.length = w)
    (hhead : (image.headD []).length = w)
    (hres : (resize heatmap w image.length).length = image.length ∧
      ∀ r ∈ resize heatmap w image.length, r.length = w) :
    (overlay_heatmap resize cmapBGR image heatmap alpha).length = image.length ∧
    ∀ r ∈ overlay_heatmap resize cmapBGR image heatmap alpha, r.length = w := by
  have hov : overlay_heatmap resize cmapBGR image heatmap alpha =
      blend3
        (((((resize heatmap (image.headD []).length image.length).map
            (fun row => row.map toUint8)).map
            (fun row => row.map cmapBGR)).map
            (fun row => row.map List.reverse)).map
            (fun row => row.map (fun px => px.map (fun (v : Nat) => (v : ℚ) / 255))))
        (match listMax image.flatten.flatten with
          | some m =>
              if 1 < m then
                image.map (fun r => r.map (fun px => px.map (fun v => v / 255)))
              else image
          | none => image)
        alpha := rfl
  rw [hov, hhead]
  have hAlen : (((((resize heatmap w image.length).map
      (fun row => row.map toUint8)).map
      (fun row => row.map cmapBGR)).map
      (fun row => row.map List.reverse)).map
      (fun row => row.map (fun px => px.map (fun (v : Nat) => (v : ℚ) / 255)))).length =
      image.length := by
    simp [hres.1]
  have hArows : ∀ r ∈ ((((resize heatmap w image.length).map
      (fun row => row.map toUint8)).map
      (fun row => row.map cmapBGR)).map
      (fun row => row.map List.reverse)).map
      (fun row => row.map (fun px => px.map (fun (v : Nat) => (v : ℚ) / 255))),
      r.length = w := by
    intro r hr
    rcases List.mem_map.mp hr with ⟨r3, hr3, rfl⟩
    rcases List.mem_map.mp hr3 with ⟨r2, hr2, rfl⟩
    rcases List.mem_map.mp hr2 with ⟨r1, hr1, rfl⟩
    rcases List.mem_map.mp hr1 with ⟨r0, hr0, rfl⟩
    simp [hres.2 r0 hr0]
  have hBlen : ((match listMax image.flatten.flatten with
      | some m =>
          if 1 < m then
            image.map (fun r => r.map (fun px => px.map (fun v => v / 255)))
          else image
      | none => image : Img)).length = image.length := by
    split
    · split
      · simp
      · rfl
    · rfl
  have hBrows : ∀ r ∈ ((match listMax image.flatten.flatten with
      | some m =>
          if 1 < m then
            image.map (fun r => r.map (fun px => px.map (fun v => v / 255)))
          else image
      | none => image : Img)), r.length = w := by
    split
    · split
      · intro r hr
        rcases List.mem_map.mp hr with ⟨r0, hr0, rfl⟩
        simpa using himg r0 hr0
      · exact himg
    · exact himg
  constructor
  · rw [show ∀ A B : Img, ∀ al : ℚ, (blend3 A B al).length = min A.length B.length from
      fun A B al => by simp [blend3], hAlen, hBlen, Nat.min_self]
  · intro r hr
    unfold blend3 at hr
    rcases of_mem_zipWith hr with ⟨x, hx, y, hy, rfl⟩
    rw [List.length_zipWith, hArows x hx, hBrows y hy, Nat.min_self]

/-- Witness for C7: a 1×1 image with values above 1 and a 2×1 heatmap,
resized by a contract-honouring interpolator. -/
theorem c7_overlay_shape_witness :
    (overlay_heatmap (fun _ w h => List.replicate h (List.replicate w 0))
        (fun _ => [128, 0, 0]) [[[5, 5, 5]]] [[1], [2]] (2/5)).length = 1 ∧
    ∀ r ∈ overlay_heatmap (fun _ w h => List.replicate h (List.replicate w 0))
        (fun _ => [128, 0, 0]) [[[5, 5, 5]]] [[1], [2]] (2/5), r.length = 1 := by
  have h := c7_overlay_shape (fun _ w h => List.replicate h (List.replicate w 0))
    (fun _ => [128, 0, 0]) [[[5, 5, 5]]] [[1], [2]] (2/5) 1
    (by simp) (by simp) (by simp)
  simpa using h

/-- C6, counterexample: with `alpha = 0` the input image is *not* always
returned unchanged — an image whose values exceed 1 (here the single pixel
value 2) is first rescaled by `image = image / 255` on line 87, so the
output is `2/255`, not `2`.  (The resize is the identity here: the heatmap
already has the image's 1×1 size.) -/
theorem c6_counterexample :
    overlay_heatmap (fun m _ _ => m) (fun _ => [0, 0, 0]) [[[2, 2, 2]]] [[0]] 0 ≠
      [[[2, 2, 2]]] := by
  have : overlay_heatmap (fun m _ _ => m) (fun _ => [0, 0, 0]) [[[2, 2, 2]]] [[0]] 0 =
      [[[2/255, 2/255, 2/255]]] := by
    norm_num [overlay_heatmap, blend3, listMax, toUint8]
  rw [this]
  intro h
  have := congrArg (fun l => (((l.headD []).headD []).headD (0 : ℚ))) h
  norm_num at this

/-- C6, amended: `overlay_heatmap` with `alpha = 0` returns the image
unchanged provided the image's values already lie in `[0,1]` (values above
1 trigger the `/255` normalization first), and with `alpha = 1` it returns
the pure colormap rendering of the resized heatmap, independent of the
image's pixel values — under the `cv2.resize` output-size contract and the
3-channel colormap contract. -/
theorem c6_overlay_boundary_cases (resize : Mat → Nat → Nat → Mat)
    (cmapBGR : Nat → List Nat) (image : Img) (heatmap : Mat) (w : Nat)
    (himg : ∀ r ∈ image, r.length = w ∧ ∀ p ∈ r, p.length = 3)
    (hhead : (image.headD []).length = w)
    (hres : (resize heatmap w image.length).length = image.length ∧
      ∀ r ∈ resize heatmap w image.length, r.length = w)
    (hcmap : ∀ v, (cmapBGR v).length = 3) :
    ((∀ x ∈ image.flatten.flatten, x ≤ 1) →
      overlay_heatmap resize cmapBGR image heatmap 0 = image) ∧
    overlay_heatmap resize cmapBGR image heatmap 1 =
      colormapRendering resize cmapBGR heatmap w image.length := by
  have hov : ∀ alpha : ℚ, overlay_heatmap resize cmapBGR image heatmap alpha =
      blend3
        (((((resize heatmap (image.headD []).length image.length).map
            (fun row => row.map toUint8)).map
            (fun row => row.map cmapBGR)).map
            (fun row => row.map List.reverse)).map
            (fun row => row.map (fun px => px.map (fun (v : Nat) => (v : ℚ) / 255))))
        (match listMax image.flatten.flatten with
          | some m =>
              if 1 < m then
                image.map (fun r => r.map (fun px => px.map (fun v => v / 255)))
              else image
          | none => image)
        alpha := fun alpha => rfl
  have hAshape : ∀ r ∈ ((((resize heatmap w image.length).map
      (fun row => row.map toUint8)).map
      (fun row => row.map cmapBGR)).map
      (fun row => row.map List.reverse)).map
      (fun row => row.map (fun px => px.map (fun (v : Nat) => (v : ℚ) / 255))),
      r.length = w ∧ ∀ p ∈ r, p.length = 3 := by
    intro r hr
    rcases List.mem_map.mp hr with ⟨r3, hr3, rfl⟩
    rcases List.mem_map.mp hr3 with ⟨r2, hr2, rfl⟩
    rcases List.mem_map.mp hr2 with ⟨r1, hr1, rfl⟩
    rcases List.mem_map.mp hr1 with ⟨r0, hr0, rfl⟩
    constructor
    · simp [hres.2 r0 hr0]
    · intro p hp
      simp only [List.map_map] at hp
      rcases List.mem_map.mp hp with ⟨x, hx, rfl⟩
      simp [hcmap]
  have hAlen : (((((resize heatmap w image.length).map
      (fun row => row.map toUint8)).map
      (fun row => row.map cmapBGR)).map
      (fun row => row.map List.reverse)).map
      (fun row => row.map (fun px => px.map (fun (v : Nat) => (v : ℚ) / 255)))).length =
      image.length := by
    simp [hres.1]
  constructor
  · intro hle
    have hI : ((match listMax image.flatten.flatten with
        | some m =>
            if 1 < m then
              image.map (fun r => r.map (fun px => px.map (fun v => v / 255)))
            else image
        | none => image : Img)) = image := by
      cases hmx : listMax image.flatten.flatten with
      | none => rfl
      | some m =>
          have hm1 : m ≤ 1 := hle m (listMax_spec hmx).1
          simp [not_lt.mpr hm1]
    rw [hov 0, hhead, hI]
    exact blend3_alpha_zero _ image w 3 (le_of_eq hAlen.symm) hAshape himg
  · rw [hov 1, hhead]
    have hI' : ∀ r ∈ ((match listMax image.flatten.flatten with
        | some m =>
            if 1 < m then
              image.map (fun r => r.map (fun px => px.map (fun v => v / 255)))
            else image
        | none => image : Img)), r.length = w ∧ ∀ p ∈ r, p.length = 3 := by
      split
      · split
        · intro r hr
          rcases List.mem_map.mp hr with ⟨r0, hr0, rfl⟩
          rcases himg r0 hr0 with ⟨hw0, hp0⟩
          refine ⟨by simpa using hw0, ?_⟩
          intro p hp
          rcases List.mem_map.mp hp with ⟨p0, hp0', rfl⟩
          simpa using hp0 p0 hp0'
        · exact himg
      · exact himg
    have hIlen : ((match listMax image.flatten.flatten with
        | some m =>
            if 1 < m then
              image.map (fun r => r.map (fun px => px.map (fun v => v / 255)))
            else image
        | none => image : Img)).length = image.length := by
      split
      · split
        · simp
        · rfl
      · rfl
    rw [blend3_alpha_one _ _ w 3
      (le_of_eq (hAlen.trans hIlen.symm)) hAshape hI']
    simp [colormapRendering, List.map_map, Function.comp_def]

/-- Witness for the amended C6 at a concrete in-range image. -/
theorem c6_overlay_boundary_cases_witness :
    overlay_heatmap (fun m _ _ => m) (fun _ => [32, 64, 128]) [[[1/2, 1/2, 1/2]]] [[1]] 0 =
        [[[1/2, 1/2, 1/2]]] ∧
      overlay_heatmap (fun m _ _ => m) (fun _ => [32, 64, 128]) [[[1/2, 1/2, 1/2]]] [[1]] 1 =
        colormapRendering (fun m _ _ => m) (fun _ => [32, 64, 128]) [[1]] 1 1 := by
  have h := c6_overlay_boundary_cases (fun m _ _ => m) (fun _ => [32, 64, 128])
    [[[1/2, 1/2, 1/2]]] [[1]] 1 (by norm_num) (by norm_num) (by norm_num) (by norm_num)
  exact ⟨h.1 (by norm_num [List.flatten]), h.2⟩

/-- C10: `overlay_heatmap` mutates neither of its arguments.  In the
explicit-heap semantics every pipeline step allocates a fresh array, so
after the call the caller's image and heatmap slots hold exactly the
contents they held before. -/
theorem c10_overlay_no_mutation (resize : Mat → Nat → Nat → Mat)
    (cmapBGR : Nat → List Nat) (s : Store) (imgRef hmRef : Nat) (alpha : ℚ)
    (d : Val) (hi : imgRef < s.length) (hh : hmRef < s.length) :
    ((overlay_heatmap_st resize cmapBGR s imgRef hmRef alpha).1).getD imgRef d =
        s.getD imgRef d ∧
      ((overlay_heatmap_st resize cmapBGR s imgRef hmRef alpha).1).getD hmRef d =
        s.getD hmRef d := by
  have hpre : List.IsPrefix s (overlay_heatmap_st resize cmapBGR s imgRef hmRef alpha).1 := by
    unfold overlay_heatmap_st alloc
    dsimp only
    split
    · simp only [List.append_assoc]
      exact List.prefix_append s _
    · simp only [List.append_assoc]
      exact List.prefix_append s _
  obtain ⟨t, ht⟩ := hpre
  rw [← ht]
  exact ⟨List.getD_append s t d imgRef hi, List.getD_append s t d hmRef hh⟩

/-- Witness for C10 at a two-slot heap holding a 1×1 image and heatmap. -/
theorem c10_overlay_no_mutation_witness :
    ((overlay_heatmap_st (fun m _ _ => m) (fun _ => [0, 0, 0])
        [Val.mq3 [[[1, 1, 1]]], Val.mq2 [[0]]] 0 1 (2/5)).1).getD 0 (Val.mq2 []) =
        ([Val.mq3 [[[1, 1, 1]]], Val.mq2 [[0]]] : Store).getD 0 (Val.mq2 []) ∧
      ((overlay_heatmap_st (fun m _ _ => m) (fun _ => [0, 0, 0])
        [Val.mq3 [[[1, 1, 1]]], Val.mq2 [[0]]] 0 1 (2/5)).1).getD 1 (Val.mq2 []) =
        ([Val.mq3 [[[1, 1, 1]]], Val.mq2 [[0]]] : Store).getD 1 (Val.mq2 []) :=
  c10_overlay_no_mutation (fun m _ _ => m) (fun _ => [0, 0, 0])
    [Val.mq3 [[[1, 1, 1]]], Val.mq2 [[0]]] 0 1 (2/5) (Val.mq2 [])
    (by norm_num) (by norm_num)

end DRGradcam

